import Mathlib

/-!
Verification of the graphio_extractor data pipeline.

The Rust sources are shallowly embedded here:
* protocol lines are byte strings (`List Nat`, one entry per byte, matching
  Rust's byte-indexed `str` operations such as `len`, `find` and slicing);
* `BigInt` is `ℤ`, `BigRational` is `ℚ`;
* fallible functions return `Except String` carrying the source's error text;
* Rust `HashSet`/`HashMap` values are association lists in insertion order
  (the Rust collections are unordered, so any fixed order models them).
-/

namespace Graphio

deriving instance DecidableEq for Except

/-- Byte string: one `Nat` per byte of the Rust `str`/`String`. -/
abbrev Line := List Nat

/-- Convert an ASCII string literal into its byte list, for concrete inputs. -/
def ascii (s : String) : Line := s.toList.map Char.toNat

/-- Index of the first occurrence of byte `b`, as in Rust `str::find` for an
ASCII needle. -/
def firstIdxOf (b : Nat) : Line → Option Nat
  | [] => none
  | x :: xs => if x = b then some 0 else (firstIdxOf b xs).map (· + 1)

/-- Index of the last occurrence of byte `b`, as in Rust `str::rfind` for an
ASCII needle. -/
def lastIdxOf (b : Nat) : Line → Option Nat
  | [] => none
  | x :: xs =>
    match lastIdxOf b xs with
    | some i => some (i + 1)
    | none => if x = b then some 0 else none

/-- Rust `str::split(sep)` for a one-byte separator: always yields at least
one (possibly empty) part. -/
def splitOnByte (sep : Nat) : Line → List Line
  | [] => [[]]
  | b :: rest =>
    match splitOnByte sep rest with
    | [] => if b = sep then [[], []] else [[b]]
    | h :: t => if b = sep then [] :: h :: t else (b :: h) :: t

/-- ASCII decimal digit test on a byte. -/
def isDigitByte (b : Nat) : Bool := 48 ≤ b && b ≤ 57

/-- Value of a digit-only byte string, most significant first. -/
def digitsToNat (l : Line) : Nat := l.foldl (fun acc b => acc * 10 + (b - 48)) 0

/-!
## Record decoder (src/parsing.rs)

A decoder consumes a prefix of the line stream and returns the value plus the
remaining lines, or the Rust error string.
-/

/-- Decoder over the positional token stream (`parsing.rs` `Iter`). -/
abbrev Decoder (α : Type) := List Line → Except String (α × List Line)

/-- Embedding of `read_line`. -/
def read_line : Decoder Line := fun p =>
  match p with
  | [] => .error "unexpected end of data"
  | l :: rest => .ok (l, rest)

/-- Embedding of `read_str`. `Str::new` interning is modelled by keeping the
byte string itself: interned symbols compare equal iff their texts do. -/
def read_str : Decoder Line := read_line

/-- Shape test from `read_localised_str_internal`: value length is
`15 + key length`, the value starts with the 14 bytes `Unknown key: "` and
ends with the byte `"`. The middle bytes are not inspected. -/
def unresolvedShape (key value : Line) : Bool :=
  value.length = 15 + key.length
    && decide (value.take 14 = ascii "Unknown key: \x22")
    && decide (value.drop (value.length - 1) = [34])

/-- Embedding of `read_localised_str_internal`. -/
def read_localised_str_internal (required : Bool) : Decoder (Option Line) := fun p => do
  let (s, p) ← read_line p
  match splitOnByte 31 s with
  | [] => .error "no key part in localised string"
  | [_] => .error "no value part in localised string"
  | _ :: _ :: _ :: _ => .error "extra part in localised string"
  | [key, value] =>
    .ok
      (if unresolvedShape key value then
        if required then some key else none
      else some value, p)

/-- Embedding of `read_localised_str`; the `unwrap` on the required result is
modelled by an explicit (unreachable) panic error. -/
def read_localised_str : Decoder Line := fun p =>
  match read_localised_str_internal true p with
  | .error e => .error e
  | .ok (some s, p) => .ok (s, p)
  | .ok (none, _) => .error "panicked: unwrap of None"

/-- Embedding of `read_optional_localised_str`. -/
def read_optional_localised_str : Decoder (Option Line) :=
  read_localised_str_internal false

/-- Models Rust `str::parse::<usize>`: an optional `+` sign followed by at
least one digit. Overflow of the 64-bit range is not modelled (the inputs
considered here are small). -/
def parse_usize (l : Line) : Option Nat :=
  let digits := match l with
    | 43 :: rest => rest
    | _ => l
  if digits ≠ [] && digits.all isDigitByte then some (digitsToNat digits) else none

/-- Embedding of `read_usize`. -/
def read_usize : Decoder Nat := fun p => do
  let (s, p) ← read_line p
  match parse_usize s with
  | some n => .ok (n, p)
  | none => .error "cannot read usize"

/-- Models Rust `str::parse::<BigInt>`: an optional sign followed by at least
one digit. -/
def parse_bigint (l : Line) : Option Int :=
  let (sign, digits) : Int × Line := match l with
    | 43 :: rest => (1, rest)
    | 45 :: rest => (-1, rest)
    | _ => (1, l)
  if digits ≠ [] && digits.all isDigitByte then some (sign * digitsToNat digits) else none

/-- Embedding of `read_int`. -/
def read_int : Decoder Int := fun p => do
  let (s, p) ← read_line p
  match parse_bigint s with
  | some n => .ok (n, p)
  | none => .error "cannot read int"

/-- Models Rust `str::parse::<f64>` at the grammar level: optional sign,
digits with an optional fractional part (at least one digit overall), and an
optional `e`/`E` exponent. The returned value is the exact decimal value as a
rational; rounding to the nearest IEEE double is not modelled, and neither are
the `inf`/`NaN` keywords (the call sites below only rely on inputs whose value
is exactly representable, such as `.0E5` = 0). -/
def parse_f64 (s : Line) : Option ℚ :=
  let (sign, s) : ℚ × Line := match s with
    | 43 :: rest => (1, rest)
    | 45 :: rest => (-1, rest)
    | _ => (1, s)
  let intDigits := s.takeWhile isDigitByte
  let s1 := s.dropWhile isDigitByte
  let (fracDigits, s2) : Line × Line := match s1 with
    | 46 :: rest => (rest.takeWhile isDigitByte, rest.dropWhile isDigitByte)
    | _ => ([], s1)
  if intDigits = [] && fracDigits = [] then none
  else
    let mant : ℚ := mkRat
      (digitsToNat intDigits * 10 ^ fracDigits.length + digitsToNat fracDigits)
      (10 ^ fracDigits.length)
    match s2 with
    | [] => some (sign * mant)
    | e :: rest =>
      if e = 101 || e = 69 then
        let (eneg, edigits) : Bool × Line := match rest with
          | 43 :: r => (false, r)
          | 45 :: r => (true, r)
          | _ => (false, rest)
        if edigits ≠ [] && edigits.all isDigitByte then
          let efactor : ℚ :=
            if eneg then mkRat 1 (10 ^ digitsToNat edigits)
            else mkRat (10 ^ digitsToNat edigits) 1
          some (sign * mant * efactor)
        else none
      else none

/-- The candidate search of `read_ratio`, lines 104-119 of parsing.rs:
denominators ascending from 1 to 1000, numerators ascending from 1 to
`den - 1`, keeping the first strictly improving candidate and stopping
outright once an improving candidate is within `1e-8`. The Rust loop measures
deltas in `f64`; here the deltas are exact rationals (the one idealisation in
this embedding, see the notes on `parse_f64`). Returns
`(closest_delta, closest_num, closest_den)`. -/
def approxSearch (approx : ℚ) (den num : Nat) (closest : ℚ × Int × Int) : ℚ × Int × Int :=
  if h : den > 1000 then closest
  else if h2 : num ≥ den then approxSearch approx (den + 1) 1 closest
  else
    let delta := |approx - (num : ℚ) / (den : ℚ)|
    if delta < closest.1 then
      if delta ≤ 1 / 100000000 then (delta, (num : Int), (den : Int))
      else approxSearch approx den (num + 1) (delta, (num : Int), (den : Int))
    else approxSearch approx den (num + 1) closest
termination_by (1001 - den, den - num)
decreasing_by
  · apply Prod.Lex.left
    omega
  · apply Prod.Lex.right
    omega
  · apply Prod.Lex.right
    omega

/-- Embedding of `read_ratio` (parsing.rs lines 68-132). -/
def read_ratio : Decoder ℚ := fun p => do
  let (s, p) ← read_line p
  if s.length < 1 then .error "expected ratio, got empty string"
  else
    let negative := decide (s.take 1 = [45])
    let s := if negative then s.drop 1 else s
    let period := firstIdxOf 46 s
    let wholeDigits ← match period with
      | some i =>
        if ((s.drop (i + 1)).contains 101 : Bool) then
          Except.error "scientific notation not supported"
        else Except.ok (s.take i)
      | none => Except.ok s
    let base ← wholeDigits.foldlM
      (fun (acc : Int) b =>
        if isDigitByte b then Except.ok (acc * 10 + (b - 48 : Nat))
        else Except.error "unexpected non-digit in string to ratio")
      (0 : Int)
    let whole : ℚ := (base : ℚ)
    let fraction : ℚ ←
      match period with
      | some i =>
        match parse_f64 (s.drop i) with
        | none => Except.error "cannot parse fractional part as f64 for ratio"
        | some approx =>
          if approx ≤ 0 then Except.ok 0
          else
            let r := approxSearch approx 1 1 (approx, 0, 1)
            Except.ok ((r.2.1 : ℚ) / (r.2.2 : ℚ))
      | none => Except.ok 0
    .ok (if negative then -(whole + fraction) else whole + fraction, p)

/-- The transient allowed-effects flags (parsing.rs lines 134-139). -/
structure AllowedEffects where
  energy : Bool
  speed : Bool
  productivity : Bool
  pollution : Bool
deriving DecidableEq, Repr

/-- Embedding of `read_allowed_effects`. -/
def read_allowed_effects : Decoder AllowedEffects := fun p => do
  let (line, p) ← read_line p
  if line.length ≠ 4 then .error "expected allowed_effects to be 4 bits"
  else
    let parse_bit : Nat → Except String Bool := fun c =>
      match c with
      | 48 => .ok false
      | 49 => .ok true
      | _ => .error "expected 0 or 1 as bit value"
    let energy ← parse_bit (line.getD 0 0)
    let speed ← parse_bit (line.getD 1 0)
    let productivity ← parse_bit (line.getD 2 0)
    let pollution ← parse_bit (line.getD 3 0)
    .ok ({ energy, speed, productivity, pollution }, p)

/-!
## Domain model (src/data/src/lib.rs)

Entity IDs are interned strings; they are modelled by their byte text (symbol
equality coincides with text equality, proved for the interner model below).
`Icon` stores a 1-based index in a `NonZeroU32`; it is modelled by the stored
value as a `Nat`.
-/

/-- Embedding of `Metadata`. -/
structure Metadata where
  localised_name : Line
  localised_description : Option Line
  icon : Option Nat
deriving DecidableEq, Repr

/-- Embedding of `IngredientResource`. -/
inductive IngredientResource where
  | item (id : Line)
  | fluid (id : Line) (minimum_temperature : Option ℚ) (maximum_temperature : Option ℚ)
deriving DecidableEq, Repr

/-- Embedding of `Ingredient`. -/
structure Ingredient where
  resource : IngredientResource
  amount : ℚ
  catalyst_amount : ℚ
deriving DecidableEq, Repr

/-- Embedding of `ProductResource`. -/
inductive ProductResource where
  | item (id : Line)
  | fluid (id : Line) (temperature : ℚ)
deriving DecidableEq, Repr

/-- Embedding of `ProductAmount`. -/
inductive ProductAmount where
  | fixed (amount : ℚ) (catalyst_amount : ℚ)
  | probability (amount_min : ℚ) (amount_max : ℚ) (probability : ℚ)
deriving DecidableEq, Repr

/-- Embedding of `Product`. -/
structure Product where
  resource : ProductResource
  amount : ProductAmount
deriving DecidableEq, Repr

/-- Embedding of `Recipe`. The `crafted_in` and `supported_modules` hash sets
are lists of IDs in insertion order. -/
structure Recipe where
  id : Line
  metadata : Metadata
  time : ℚ
  ingredients : List Ingredient
  products : List Product
  crafted_in : List Line
  supported_modules : List Line
deriving DecidableEq, Repr

/-- Embedding of `Machine`. -/
structure Machine where
  id : Line
  metadata : Metadata
  crafting_speed : ℚ
  energy_consumption : ℚ
  energy_drain : ℚ
  module_slots : Int
  supported_modules : List Line
deriving DecidableEq, Repr

/-- Embedding of `Beacon`. -/
structure Beacon where
  id : Line
  metadata : Metadata
  distribution_effectivity : ℚ
  supported_modules : List Line
deriving DecidableEq, Repr

/-- Embedding of `Module`. -/
structure Module where
  id : Line
  modifier_energy : ℚ
  modifier_speed : ℚ
  modifier_productivity : ℚ
  modifier_pollution : ℚ
deriving DecidableEq, Repr

/-- Embedding of `Item`. -/
structure Item where
  id : Line
  metadata : Metadata
deriving DecidableEq, Repr

/-- Embedding of `Fluid`. -/
structure Fluid where
  id : Line
  metadata : Metadata
deriving DecidableEq, Repr

/-- Embedding of `TileMetadata`. -/
structure TileMetadata where
  tile_size : Nat × Nat
  tile_count : Nat
  image_size : Nat × Nat
deriving DecidableEq, Repr

/-- Embedding of `GameData`. The five identity-keyed hash sets are lists in
insertion order whose elements have pairwise distinct IDs in any value the
assembly produces. -/
structure GameData where
  tile_metadata : Option TileMetadata
  items : List Item
  fluids : List Fluid
  recipes : List Recipe
  machines : List Machine
  beacons : List Beacon
  modules : List Module
deriving DecidableEq, Repr

/-- Embedding of the five-variant `ID` enum. -/
inductive EntityID where
  | item (id : Line)
  | fluid (id : Line)
  | recipe (id : Line)
  | machine (id : Line)
  | beacon (id : Line)
deriving DecidableEq, Repr

/-!
## Data assembly (src/src/main.rs, `transform_data`)
-/

/-- Rust `HashMap` insertion (`collect::<HashMap>`): an existing key has its
value replaced, a new key is appended. -/
def insertOverwrite {ν : Type} (m : List (Line × ν)) (k : Line) (v : ν) : List (Line × ν) :=
  if m.any (fun p => p.1 = k) then
    m.map (fun p => if p.1 = k then (k, v) else p)
  else m ++ [(k, v)]

/-- Rust identity-keyed `HashSet` insertion (`collect::<HashSet>`): when an
element with the same ID is present the existing element is kept. -/
def insertKeyed {α : Type} (key : α → Line) (l : List α) (x : α) : List α :=
  if l.any (fun y => key y = key x) then l else l ++ [x]

/-- Reads `n` machine records (main.rs lines 345-380) into the id-keyed map of
machine and transient allowed-effects pairs. -/
def read_machines (n : Nat) (acc : List (Line × (Machine × AllowedEffects))) :
    Decoder (List (Line × (Machine × AllowedEffects))) := fun p =>
  match n with
  | 0 => .ok (acc, p)
  | n + 1 => do
    let (id, p) ← read_str p
    let (localised_name, p) ← read_localised_str p
    let (localised_description, p) ← read_optional_localised_str p
    let metadata : Metadata := { localised_name, localised_description, icon := none }
    let (crafting_speed, p) ← read_ratio p
    let (energy_consumption, p) ← read_ratio p
    let (energy_drain, p) ← read_ratio p
    let (module_slots, p) ← read_int p
    let (allowed_effects, p) ← read_allowed_effects p
    let machine : Machine :=
      { id, metadata, crafting_speed, energy_consumption, energy_drain, module_slots,
        supported_modules := [] }
    read_machines n (insertOverwrite acc id (machine, allowed_effects)) p

/-- Reads `n` beacon records (main.rs lines 385-413) into the id-keyed map of
beacon and transient allowed-effects pairs. -/
def read_beacons (n : Nat) (acc : List (Line × (Beacon × AllowedEffects))) :
    Decoder (List (Line × (Beacon × AllowedEffects))) := fun p =>
  match n with
  | 0 => .ok (acc, p)
  | n + 1 => do
    let (id, p) ← read_str p
    let (localised_name, p) ← read_localised_str p
    let (localised_description, p) ← read_optional_localised_str p
    let metadata : Metadata := { localised_name, localised_description, icon := none }
    let (distribution_effectivity, p) ← read_ratio p
    let (allowed_effects, p) ← read_allowed_effects p
    let beacon : Beacon :=
      { id, metadata, distribution_effectivity, supported_modules := [] }
    read_beacons n (insertOverwrite acc id (beacon, allowed_effects)) p

/-- Reads one ingredient (main.rs lines 421-463). -/
def read_ingredient : Decoder Ingredient := fun p => do
  let (kind, p) ← read_line p
  let (id, p) ← read_str p
  let (amount, p) ← read_ratio p
  let (catalyst_amount, p) ← read_ratio p
  let (resource, p) ←
    if kind = ascii "item" then Except.ok (IngredientResource.item id, p)
    else if kind = ascii "fluid" then do
      let (flags, p) ← read_line p
      if flags.length ≠ 2 then
        Except.error "expected optional field flags in ingredient fluid to be 2 bits"
      else do
        let (minimum_temperature, p) ←
          match flags.getD 0 0 with
          | 48 => Except.ok ((none : Option ℚ), p)
          | 49 => do
            let (t, p) ← read_ratio p
            Except.ok (some t, p)
          | _ => Except.error "expected optional field flags in ingredient fluid to be 0 or 1"
        let (maximum_temperature, p) ←
          match flags.getD 1 0 with
          | 48 => Except.ok ((none : Option ℚ), p)
          | 49 => do
            let (t, p) ← read_ratio p
            Except.ok (some t, p)
          | _ => Except.error "expected optional field flags in ingredient fluid to be 0 or 1"
        Except.ok (IngredientResource.fluid id minimum_temperature maximum_temperature, p)
    else Except.error "unknown recipe ingredient kind"
  .ok ({ resource, amount, catalyst_amount }, p)

/-- Reads one product (main.rs lines 466-507). -/
def read_product : Decoder Product := fun p => do
  let (kind, p) ← read_line p
  let (id, p) ← read_str p
  let (resource, p) ←
    if kind = ascii "item" then Except.ok (ProductResource.item id, p)
    else if kind = ascii "fluid" then do
      let (temperature, p) ← read_ratio p
      Except.ok (ProductResource.fluid id temperature, p)
    else Except.error "unknown recipe product kind"
  let (kind, p) ← read_line p
  let (amount, p) ←
    if kind = ascii "fixed" then do
      let (amount, p) ← read_ratio p
      let (catalyst_amount, p) ← read_ratio p
      Except.ok (ProductAmount.fixed amount catalyst_amount, p)
    else if kind = ascii "probability" then do
      let (amount_min, p) ← read_ratio p
      let (amount_max, p) ← read_ratio p
      let (probability, p) ← read_ratio p
      Except.ok (ProductAmount.probability amount_min amount_max probability, p)
    else Except.error "unknown recipe product amount kind"
  .ok ({ resource, amount }, p)

/-- Reads `n` values with a decoder, in order. -/
def readN {α : Type} (d : Decoder α) (n : Nat) : Decoder (List α) := fun p =>
  match n with
  | 0 => .ok ([], p)
  | n + 1 => do
    let (x, p) ← d p
    let (xs, p) ← readN d n p
    .ok (x :: xs, p)

/-- Reads `n` recipe records (main.rs lines 415-530) into the id-keyed recipe
set. -/
def read_recipes (n : Nat) (acc : List Recipe) : Decoder (List Recipe) := fun p =>
  match n with
  | 0 => .ok (acc, p)
  | n + 1 => do
    let (id, p) ← read_str p
    let (localised_name, p) ← read_localised_str p
    let (localised_description, p) ← read_optional_localised_str p
    let metadata : Metadata := { localised_name, localised_description, icon := none }
    let (time, p) ← read_ratio p
    let (ingredient_count, p) ← read_usize p
    let (ingredients, p) ← readN read_ingredient ingredient_count p
    let (product_count, p) ← read_usize p
    let (products, p) ← readN read_product product_count p
    let (crafted_in_count, p) ← read_usize p
    let (crafted_in_list, p) ← readN read_str crafted_in_count p
    let crafted_in := crafted_in_list.foldl (insertKeyed (fun l => l)) []
    let recipe : Recipe :=
      { id, metadata, time, ingredients, products, crafted_in, supported_modules := [] }
    read_recipes n (insertKeyed Recipe.id acc recipe) p

/-- The take/mutate/reinsert loop attaching a module to each recipe named in
its limitations (main.rs lines 577-583); a missing recipe is a
`ReferenceError`. -/
def addModuleToRecipes (itemId : Line) (limitations : List Line) (recipes : List Recipe) :
    Except String (List Recipe) :=
  match limitations with
  | [] => .ok recipes
  | lim :: rest =>
    match recipes.find? (fun r => r.id = lim) with
    | none => .error "module limitation contains non-existent recipe"
    | some r =>
      let remaining := recipes.filter (fun q => q.id ≠ lim)
      let r := { r with supported_modules := insertKeyed (fun l => l) r.supported_modules itemId }
      addModuleToRecipes itemId rest (remaining ++ [r])

/-- Reads `n` item records (main.rs lines 537-592), threading the recipe set
(mutated by module limitations) and the module set. -/
def read_items (n : Nat) (accItems : List Item) (recipes : List Recipe)
    (modules : List Module) :
    Decoder (List Item × List Recipe × List Module) := fun p =>
  match n with
  | 0 => .ok ((accItems, recipes, modules), p)
  | n + 1 => do
    let (id, p) ← read_str p
    let (localised_name, p) ← read_localised_str p
    let (localised_description, p) ← read_optional_localised_str p
    let metadata : Metadata := { localised_name, localised_description, icon := none }
    let (is_module_line, p) ← read_line p
    let is_module ←
      if is_module_line = ascii "0" then Except.ok false
      else if is_module_line = ascii "1" then Except.ok true
      else Except.error "expected module flag on item to be 0 or 1"
    let (recipes, modules, p) ←
      if is_module then do
        let (modifier_energy, p) ← read_ratio p
        let (modifier_speed, p) ← read_ratio p
        let (modifier_productivity, p) ← read_ratio p
        let (modifier_pollution, p) ← read_ratio p
        let modules := insertKeyed Module.id modules
          { id, modifier_energy, modifier_speed, modifier_productivity, modifier_pollution }
        let (has_limitations_line, p) ← read_line p
        let has_limitations ←
          if has_limitations_line = ascii "0" then Except.ok false
          else if has_limitations_line = ascii "1" then Except.ok true
          else Except.error "expected limitations flag on item to be 0 or 1"
        let (limitations, p) ←
          if has_limitations then do
            let (limitation_count, p) ← read_usize p
            let (limitation_list, p) ← readN read_str limitation_count p
            Except.ok (limitation_list.foldl (insertKeyed (fun l => l)) [], p)
          else Except.ok (recipes.map Recipe.id, p)
        let recipes ← addModuleToRecipes id limitations recipes
        Except.ok (recipes, modules, p)
      else Except.ok (recipes, modules, p)
    read_items n (insertKeyed Item.id accItems { id, metadata }) recipes modules p

/-- Reads `n` fluid records (main.rs lines 597-608). -/
def read_fluids (n : Nat) (acc : List Fluid) : Decoder (List Fluid) := fun p =>
  match n with
  | 0 => .ok (acc, p)
  | n + 1 => do
    let (id, p) ← read_str p
    let (localised_name, p) ← read_localised_str p
    let (localised_description, p) ← read_optional_localised_str p
    let metadata : Metadata := { localised_name, localised_description, icon := none }
    read_fluids n (insertKeyed Fluid.id acc { id, metadata }) p

/-- Embedding of `get_allowed_modules` (main.rs lines 614-628): a module is
kept iff every effect channel is either allowed or has a zero modifier. -/
def get_allowed_modules (modules : List Module) (allowed_effects : AllowedEffects) :
    List Line :=
  (modules.filter (fun module =>
    (allowed_effects.energy || decide (module.modifier_energy = 0))
      && (allowed_effects.speed || decide (module.modifier_speed = 0))
      && (allowed_effects.productivity || decide (module.modifier_productivity = 0))
      && (allowed_effects.pollution || decide (module.modifier_pollution = 0)))).map Module.id

/-- Embedding of `transform_data` (main.rs lines 320-657). Counts are checked
against the parsed collections exactly where the source checks them; the
beacon collection has no such check in the source. -/
def transform_data (lines : List Line) : Except String GameData := do
  let (lengthsLine, p) ← read_line lines
  let lengths ← (splitOnByte 31 lengthsLine).mapM (fun entry =>
    match parse_usize entry with
    | some n => Except.ok n
    | none => Except.error "cannot read lengths from the first line")
  if lengths.length ≠ 5 then .error "expected 5 lengths on the first line"
  else
    let machine_count := lengths.getD 0 0
    let beacon_count := lengths.getD 1 0
    let recipe_count := lengths.getD 2 0
    let item_count := lengths.getD 3 0
    let fluid_count := lengths.getD 4 0
    let (machines, p) ← read_machines machine_count [] p
    if machines.length ≠ machine_count then .error "duplicate machines in exported data set"
    else do
      let (beacons, p) ← read_beacons beacon_count [] p
      let (recipes, p) ← read_recipes recipe_count [] p
      if recipes.length ≠ recipe_count then .error "duplicate recipes in exported data set"
      else do
        let ((items, recipes, modules), p) ← read_items item_count [] recipes [] p
        if items.length ≠ item_count then .error "duplicate items in exported data set"
        else do
          let (fluids, _) ← read_fluids fluid_count [] p
          if fluids.length ≠ fluid_count then .error "duplicate fluids in exported data set"
          else
            let machines := machines.map (fun (_, machine, allowed_effects) =>
              { machine with supported_modules := get_allowed_modules modules allowed_effects })
            let beacons := beacons.map (fun (_, beacon, allowed_effects) =>
              { beacon with supported_modules := get_allowed_modules modules allowed_effects })
            .ok
              { tile_metadata := none, items, fluids, recipes, machines, beacons, modules }

/-!
## Symbol table (src/data/src/lib.rs, `Str::new` / `Str::str`)

The process-wide interner is a list of previously interned texts; a symbol is
the position at which its text was first interned (the Rust `NonZeroU32` adds
one to this position, which preserves equality). `get_or_intern` returns the
existing position for known text and appends unknown text at the end, exactly
as the `string_interner` crate the source relies on. The reader/writer lock
serialises all accesses, so threading the table state through successive calls
models the Rust global table.
-/

/-- Index-assigning insertion: the position of the first occurrence of `x` if
present (state unchanged), else the current length with `x` appended. Models
both `StringInterner::get_or_intern` (`Str::new`) and the
`images.entry(image).or_insert(image_count)` pattern of `transform_icons`. -/
def internIndex {α : Type} [DecidableEq α] : List α → α → Nat × List α
  | [], x => (0, [x])
  | y :: ys, x =>
    if y = x then (0, y :: ys)
    else
      let r := internIndex ys x
      (r.1 + 1, y :: r.2)

/-- Embedding of `Str::new` on an interner state. -/
def str_new (st : List String) (s : String) : Nat × List String := internIndex st s

/-- Embedding of `Str::str`: resolving a symbol against the interner. -/
def str_resolve (st : List String) (sym : Nat) : Option String := st.get? sym

/-!
## `GameData::modify_metadata` (src/data/src/lib.rs lines 359-384)
-/

/-- The `iter().map(..).collect::<Result<_, E>>()` applied to one collection:
stops at the first entity on which `f` fails. -/
def collectResults {ε α : Type} (f : α → Except ε α) : List α → Except ε (List α)
  | [] => .ok []
  | x :: xs => do
    let y ← f x
    let ys ← collectResults f xs
    .ok (y :: ys)

/-- Embedding of `GameData::modify_metadata`. The Rust method mutates `self`
field by field with `self.field = ...?`, so the returned pair carries the
state of `self` when the method returns: on an error in one collection, the
collections already processed keep their rewritten value. -/
def modify_metadata {ε : Type} (gd : GameData) (f : EntityID → Metadata → Except ε Metadata) :
    Except ε Unit × GameData :=
  match collectResults
      (fun (it : Item) => (f (.item it.id) it.metadata).map fun m => { it with metadata := m })
      gd.items with
  | .error e => (.error e, gd)
  | .ok items =>
    let gd := { gd with items }
    match collectResults
        (fun (fl : Fluid) => (f (.fluid fl.id) fl.metadata).map fun m => { fl with metadata := m })
        gd.fluids with
    | .error e => (.error e, gd)
    | .ok fluids =>
      let gd := { gd with fluids }
      match collectResults
          (fun (r : Recipe) => (f (.recipe r.id) r.metadata).map fun m => { r with metadata := m })
          gd.recipes with
      | .error e => (.error e, gd)
      | .ok recipes =>
        let gd := { gd with recipes }
        match collectResults
            (fun (m : Machine) =>
              (f (.machine m.id) m.metadata).map fun md => { m with metadata := md })
            gd.machines with
        | .error e => (.error e, gd)
        | .ok machines =>
          let gd := { gd with machines }
          match collectResults
              (fun (b : Beacon) =>
                (f (.beacon b.id) b.metadata).map fun md => { b with metadata := md })
              gd.beacons with
          | .error e => (.error e, gd)
          | .ok beacons => (.ok (), { gd with beacons })

/-!
## Icon deduplication and atlas packing (src/src/main.rs, `transform_icons`)

The per-pixel `f64` alpha recovery of `combine_image` is outside the scope of
these claims; the recovered RGBA buffer of each ID is therefore an input (one
buffer function per `resolve_image` call, standing for "load the two renders
from this category's directory and combine them").
-/

/-- Byte-lexicographic order on byte strings, as Rust `str` ordering used by
`sort_by_key` on the resolved ID texts. -/
def bytesLe : Line → Line → Bool
  | [], _ => true
  | _ :: _, [] => false
  | a :: as, b :: bs => if a < b then true else if b < a then false else bytesLe as bs

/-- Insertion into a byte-lexicographically sorted list. -/
def insertSortedByKey {α : Type} (key : α → Line) (x : α) : List α → List α
  | [] => [x]
  | y :: ys => if bytesLe (key x) (key y) then x :: y :: ys else y :: insertSortedByKey key x ys

/-- Sorting by the resolved ID text (`sorted.sort_by_key(|&(_, s)| s)`). -/
def sortByKey {α : Type} (key : α → Line) (l : List α) : List α :=
  l.foldr (insertSortedByKey key) []

/-- The body of `resolve_image` after sorting: fold over the IDs, assigning
each recovered buffer its index in the shared content map. -/
def resolveImageGo (buf : Line → Line) : List Line → List Line → List (Line × Nat) × List Line
  | [], images => ([], images)
  | id :: rest, images =>
    let r1 := internIndex images (buf id)
    let r2 := resolveImageGo buf rest r1.2
    ((id, r1.1) :: r2.1, r2.2)

/-- Embedding of `resolve_image` (main.rs lines 889-932): sort the IDs by
resolved text, then assign each ID the atlas slot of its buffer, sharing the
content-to-slot map `images` across calls. -/
def resolve_image (buf : Line → Line) (images : List Line) (ids : List Line) :
    List (Line × Nat) × List Line :=
  resolveImageGo buf (sortByKey (fun l => l) ids) images

/-- The per-category assignments and the final deduplicated buffer list. -/
structure IconAssignment where
  item_icons : List (Line × Nat)
  fluid_icons : List (Line × Nat)
  recipe_icons : List (Line × Nat)
  machine_icons : List (Line × Nat)
  beacon_icons : List (Line × Nat)
  images : List Line

/-- The five sequential `resolve_image` calls of `transform_icons` (main.rs
lines 948-1014), sharing one `images` map; `images.len()` afterwards is the
`tile_count` stored in the `TileMetadata` (line 1083). -/
def transform_icons_assign (itemIds fluidIds recipeIds machineIds beaconIds : List Line)
    (bufI bufF bufR bufM bufB : Line → Line) : IconAssignment :=
  let r1 := resolve_image bufI [] itemIds
  let r2 := resolve_image bufF r1.2 fluidIds
  let r3 := resolve_image bufR r2.2 recipeIds
  let r4 := resolve_image bufM r3.2 machineIds
  let r5 := resolve_image bufB r4.2 beaconIds
  { item_icons := r1.1, fluid_icons := r2.1, recipe_icons := r3.1,
    machine_icons := r4.1, beacon_icons := r5.1, images := r5.2 }

/-- The fixed tile size (main.rs lines 805-806). -/
def TILE_WIDTH : Nat := 32

/-- The fixed tile height. -/
def TILE_HEIGHT : Nat := 32

/-- Integer ceiling square root: the `((n as f64).sqrt().ceil()) as u32` of
main.rs line 1040, evaluated exactly (IEEE double square root agrees with the
exact value on every atlas size a 32-bit tile count can reach). -/
def ceilSqrt (n : Nat) : Nat :=
  if Nat.sqrt n * Nat.sqrt n = n then Nat.sqrt n else Nat.sqrt n + 1

/-- Atlas column count (main.rs line 1040). -/
def atlasColumns (n : Nat) : Nat := ceilSqrt n

/-- Atlas row count `(n + columns - 1) / columns` (main.rs line 1041). -/
def atlasRows (n : Nat) : Nat := (n + atlasColumns n - 1) / atlasColumns n

/-- The tile cell `(index % columns, index / columns)` at which tile `i` of an
`n`-tile atlas is placed (main.rs lines 1050-1051, in tile units). -/
def atlasCell (n i : Nat) : Nat × Nat := (i % atlasColumns n, i / atlasColumns n)

/-- The pixel position at which `transform_icons` blits tile `i`:
`bx = (index % columns) * TILE_WIDTH`, `by = (index / columns) * TILE_HEIGHT`. -/
def atlasPlacePixel (n i : Nat) : Nat × Nat :=
  ((i % atlasColumns n) * TILE_WIDTH, (i / atlasColumns n) * TILE_HEIGHT)

/-- The `TileMetadata` built for an `n`-tile atlas (main.rs lines 1081-1085). -/
def tileMetadataOf (n : Nat) : TileMetadata :=
  { tile_size := (TILE_WIDTH, TILE_HEIGHT),
    tile_count := n,
    image_size := (atlasColumns n * TILE_WIDTH, atlasRows n * TILE_HEIGHT) }

/-- Embedding of `Icon::new` (lib.rs line 353): the stored value is the dense
index plus one. -/
def icon_new (idx : Nat) : Nat := idx + 1

/-- Embedding of `Icon::index` (lib.rs line 349). -/
def icon_index (stored : Nat) : Nat := stored - 1

/-- Embedding of `Icon::position` (lib.rs lines 341-347): recompute the pixel
position from the stored value and the tile geometry. -/
def icon_position (stored : Nat) (tm : TileMetadata) : Nat × Nat :=
  let columns := tm.image_size.1 / tm.tile_size.1
  let idx := icon_index stored
  (idx % columns * tm.tile_size.1, idx / columns * tm.tile_size.2)

/-!
## Payload extraction (src/src/main.rs, `extract_data` lines 271-299)
-/

/-- Outcome of the payload extraction: a graceful `io::Error`, a panic of the
slice expression `&output[marker_start + 1..marker_end]`, or the extracted
token lines. -/
inductive ExtractOutcome where
  | failure (msg : String)
  | panicked
  | extracted (lines : List Line)
deriving DecidableEq, Repr

/-- The `batching` tokenizer of main.rs lines 281-299, as a one-byte-at-a-time
state machine: outside a frame (`acc = none`) scan for `\x02`; inside a frame
(`acc = some token`, collected in reverse) collect bytes until the matching
`\x03` yields the token. Reaching the end of input inside a frame drops the
unterminated fragment and ends the sequence, as the Rust inner loop's `break`
does. -/
def tokenizeGo (acc : Option Line) : Line → List Line
  | [] => []
  | c :: rest =>
    match acc with
    | none => if c = 2 then tokenizeGo (some []) rest else tokenizeGo none rest
    | some t => if c = 3 then t.reverse :: tokenizeGo none rest else tokenizeGo (some (c :: t)) rest

/-- The framed-token sequence of a payload span. -/
def tokenize (l : Line) : List Line := tokenizeGo none l

/-- The marker location and slicing of `extract_data` (main.rs lines 271-299):
first `\x01`, last `\x04`, then tokenize the span between them. The Rust
expression `&output[marker_start + 1..marker_end]` panics when the end of the
range lies before its start. -/
def extract_data_payload (output : Line) : ExtractOutcome :=
  match firstIdxOf 1 output with
  | none => .failure "no start marker in output"
  | some i =>
    match lastIdxOf 4 output with
    | none => .failure "no end marker in output"
    | some j =>
      if i + 1 ≤ j then .extracted (tokenize ((output.drop (i + 1)).take (j - (i + 1))))
      else .panicked

/-!
## Concrete protocol inputs used by the claim theorems
-/

/-- Header line declaring 0 machines, 2 beacons, 0 recipes, 0 items, 0 fluids
(counts separated by the unit-separator byte). -/
def headerTwoBeacons : Line :=
  ascii "0" ++ [31] ++ ascii "2" ++ [31] ++ ascii "0" ++ [31] ++ ascii "0" ++ [31] ++ ascii "0"

/-- Header line declaring 2 machines and nothing else. -/
def headerTwoMachines : Line :=
  ascii "2" ++ [31] ++ ascii "0" ++ [31] ++ ascii "0" ++ [31] ++ ascii "0" ++ [31] ++ ascii "0"

/-- One beacon record with ID `b`: id line, localised name, localised
description, distribution effectivity `1`, allowed effects `0000`. -/
def beaconRecord : List Line :=
  [ascii "b",
   ascii "b" ++ [31] ++ ascii "Beacon",
   ascii "d" ++ [31] ++ ascii "Desc",
   ascii "1",
   ascii "0000"]

/-- One machine record with ID `m`: id line, localised name, localised
description, crafting speed, energy consumption, energy drain, module slots,
allowed effects. -/
def machineRecord : List Line :=
  [ascii "m",
   ascii "m" ++ [31] ++ ascii "Machine",
   ascii "d" ++ [31] ++ ascii "Desc",
   ascii "1",
   ascii "1",
   ascii "0",
   ascii "2",
   ascii "0000"]

/-- A stream declaring two beacons but supplying the same beacon twice. -/
def dupBeaconInput : List Line := headerTwoBeacons :: (beaconRecord ++ beaconRecord)

/-- A stream declaring two machines but supplying the same machine twice. -/
def dupMachineInput : List Line := headerTwoMachines :: (machineRecord ++ machineRecord)

/-- The fallback-shaped localised value `Unknown key: "b"`, whose echoed
middle (`b`) differs from the key `a` it will be paired with. -/
def mismatchedFallback : Line := ascii "Unknown key: \x22b\x22"

/-- A module with all-zero modifiers. -/
def zeroModule : Module :=
  { id := ascii "z", modifier_energy := 0, modifier_speed := 0,
    modifier_productivity := 0, modifier_pollution := 0 }

/-- Allowed-effects flags with every channel forbidden. -/
def noEffects : AllowedEffects :=
  { energy := false, speed := false, productivity := false, pollution := false }

/-- A one-item, one-fluid `GameData` for the `modify_metadata` analysis. -/
def smallGameData : GameData :=
  { tile_metadata := none,
    items := [{ id := ascii "i",
                metadata := { localised_name := ascii "I", localised_description := none,
                              icon := none } }],
    fluids := [{ id := ascii "f",
                 metadata := { localised_name := ascii "F", localised_description := none,
                               icon := none } }],
    recipes := [], machines := [], beacons := [], modules := [] }

/-- A metadata callback that succeeds (and visibly rewrites) on items but
fails on every other entity kind. -/
def failOnFluid : EntityID → Metadata → Except Unit Metadata := fun eid meta =>
  match eid with
  | .item _ => .ok { meta with icon := some 1 }
  | _ => .error ()

attribute [local semireducible] Rat.add Rat.mul Rat.sub Rat.inv

/-!
## Claim C1 — the beacon count check is missing

`transform_data` rejects a machine, recipe, item or fluid collection whose
size differs from the declared count, but the beacon block (main.rs lines
385-413) has no such check: a duplicate `BeaconID` collapses the map and the
stream is accepted.
-/

/-- C1: a stream declaring two beacons but containing the same beacon twice is
accepted by `transform_data` with a single beacon in the result, while the
exactly analogous duplicate-machine stream is rejected with the
count-mismatch error. The spec requires the beacon case to fail the same way;
the source simply omits the beacon check. -/
theorem transform_data_duplicate_beacon_not_rejected :
    (transform_data dupBeaconInput).map (fun gd => gd.beacons.length) = .ok 1
      ∧ transform_data dupMachineInput = .error "duplicate machines in exported data set" := by
  constructor
  · rfl
  · rfl

/-!
## Claim C5 — only lowercase scientific notation is rejected

`read_ratio` guards the fractional part with `find('e')` (parsing.rs line 77),
which misses a capital `E`; the fractional text then reaches the `f64` parser,
which accepts capital-`E` scientific notation.
-/

/-- C5: `read_ratio` accepts the input `1.0E5` (the fractional part `.0E5`
parses as the float 0, so the result is the rational 1), although the claim
and the error message require every scientific-notation fractional part to be
rejected; the lowercase twin `1.0e5` is rejected as claimed. -/
theorem read_ratio_capital_E_not_rejected :
    (read_ratio [ascii "1.0E5"]).map Prod.fst = .ok 1
      ∧ (read_ratio [ascii "1.0e5"]).map Prod.fst =
          .error "scientific notation not supported" := by
  constructor
  · decide
  · rfl

/-!
## Claim C6 — the echoed middle of the fallback shape is not compared
-/

theorem splitOnByte_ne_nil (sep : Nat) (l : Line) : splitOnByte sep l ≠ [] := by
  cases l with
  | nil => simp [splitOnByte]
  | cons b rest =>
    rw [splitOnByte]
    split
    · split <;> simp
    · split <;> simp

theorem splitOnByte_of_not_mem {sep : Nat} {l : Line} (h : sep ∉ l) :
    splitOnByte sep l = [l] := by
  induction l with
  | nil => rfl
  | cons b rest ih =>
    have hb : b ≠ sep := fun hb => h (hb ▸ List.mem_cons_self b rest)
    have hrest : sep ∉ rest := fun hr => h (List.mem_cons_of_mem b hr)
    rw [splitOnByte, ih hrest]
    simp [hb]

theorem splitOnByte_append {sep : Nat} {l1 l2 : Line} (h : sep ∉ l1) :
    splitOnByte sep (l1 ++ sep :: l2) = l1 :: splitOnByte sep l2 := by
  induction l1 with
  | nil =>
    rw [List.nil_append, splitOnByte]
    rcases hs : splitOnByte sep l2 with _ | ⟨x, xs⟩
    · exact absurd hs (splitOnByte_ne_nil sep l2)
    · simp
  | cons b rest ih =>
    have hb : b ≠ sep := fun hb => h (hb ▸ List.mem_cons_self b rest)
    have hrest : sep ∉ rest := fun hr => h (List.mem_cons_of_mem b hr)
    rw [List.cons_append, splitOnByte, ih hrest]
    simp [hb]

/-- C6 counterexample: with key `a` and value `Unknown key: "b"`, the echoed
middle (`b`) differs from the key, so by the claim the value itself should be
returned; the code only checks length, prefix and suffix, treats the line as
unresolved, and returns the key `a` instead. -/
theorem read_localised_str_mismatched_middle :
    read_localised_str_internal true [ascii "a" ++ 31 :: mismatchedFallback] =
      .ok (some (ascii "a"), [])
      ∧ (mismatchedFallback.drop 14).dropLast ≠ ascii "a"
      ∧ some mismatchedFallback ≠ some (ascii "a") := by
  refine ⟨by decide, by decide, by decide⟩

/-- C6 amended: a `key\x1f value` line is treated as unresolved exactly when
the value's length is `15 + key.length`, it starts with `Unknown key: "` and
ends with `"`; the middle bytes are never compared against the key (any
middle of the right length passes the test). When unresolved, a required
field falls back to the key, an optional one to `none`; otherwise the value
is returned. -/
theorem read_localised_str_internal_spec (required : Bool) (key value : Line)
    (rest : List Line) (hkey : (31 : Nat) ∉ key) (hvalue : (31 : Nat) ∉ value) :
    read_localised_str_internal required ((key ++ 31 :: value) :: rest) =
      .ok ((if unresolvedShape key value then
              if required then some key else none
            else some value), rest)
      ∧ (∀ middle : Line, middle.length = key.length →
          unresolvedShape key (ascii "Unknown key: \x22" ++ middle ++ [34]) = true) := by
  constructor
  · rw [read_localised_str_internal]
    show (match splitOnByte 31 (key ++ 31 :: value) with
      | [] => Except.error "no key part in localised string"
      | [_] => Except.error "no value part in localised string"
      | _ :: _ :: _ :: _ => Except.error "extra part in localised string"
      | [k, v] =>
        Except.ok
          (if unresolvedShape k v then if required then some k else none else some v,
            rest)) = _
    rw [splitOnByte_append hkey, splitOnByte_of_not_mem hvalue]
  · intro middle hlen
    have hplen : (ascii "Unknown key: \x22").length = 14 := by decide
    have hpm : (ascii "Unknown key: \x22" ++ middle).length = 14 + key.length := by
      rw [List.length_append, hplen, hlen]
    have hlen2 : (ascii "Unknown key: \x22" ++ middle ++ [34]).length = 15 + key.length := by
      simp only [List.length_append, hplen, hlen, List.length_cons, List.length_nil]
      omega
    have htake : (ascii "Unknown key: \x22" ++ middle ++ [34]).take 14 =
        ascii "Unknown key: \x22" := by
      rw [List.take_append_of_le_length (by rw [hpm]; omega),
        List.take_append_of_le_length (le_of_eq hplen.symm), ← hplen, List.take_length]
    have hdrop2 : (ascii "Unknown key: \x22" ++ middle ++ [34]).drop (15 + key.length - 1) =
        [34] := by
      have hl : 15 + key.length - 1 = (ascii "Unknown key: \x22" ++ middle).length := by
        rw [hpm]
        omega
      rw [hl, List.drop_left]
    rw [unresolvedShape, hlen2, htake, hdrop2]
    simp

/-- C6 witness: the amended theorem applied to the key `k`, the plain value
`hello` and an empty remainder. -/
theorem read_localised_str_internal_spec_witness :
    read_localised_str_internal false [ascii "k" ++ 31 :: ascii "hello"] =
      .ok (some (ascii "hello"), []) := by
  have h := (read_localised_str_internal_spec false (ascii "k") (ascii "hello") []
    (by decide) (by decide)).1
  exact h.trans (by decide)

/-!
## Claim C2 — module support iff every channel is allowed or zero
-/

/-- C2: a parsed module's ID appears in `get_allowed_modules` (the set
installed as `supported_modules` on every machine and beacon) iff each of the
four effect channels is either allowed by the machine/beacon or carried with
an exactly-zero modifier by the module; consequently an all-zero module is
supported under every flag combination. -/
theorem get_allowed_modules_spec (modules : List Module) (ae : AllowedEffects)
    (m : Module) (hm : m ∈ modules) (hnd : (modules.map Module.id).Nodup) :
    (m.id ∈ get_allowed_modules modules ae ↔
      ((ae.energy = true ∨ m.modifier_energy = 0) ∧
        (ae.speed = true ∨ m.modifier_speed = 0) ∧
        (ae.productivity = true ∨ m.modifier_productivity = 0) ∧
        (ae.pollution = true ∨ m.modifier_pollution = 0)))
    ∧ (m.modifier_energy = 0 → m.modifier_speed = 0 → m.modifier_productivity = 0 →
        m.modifier_pollution = 0 →
        ∀ ae' : AllowedEffects, m.id ∈ get_allowed_modules modules ae') := by
  have hiff : ∀ ae' : AllowedEffects, m.id ∈ get_allowed_modules modules ae' ↔
      ((ae'.energy = true ∨ m.modifier_energy = 0) ∧
        (ae'.speed = true ∨ m.modifier_speed = 0) ∧
        (ae'.productivity = true ∨ m.modifier_productivity = 0) ∧
        (ae'.pollution = true ∨ m.modifier_pollution = 0)) := by
    intro ae'
    rw [get_allowed_modules, List.mem_map]
    constructor
    · rintro ⟨m', hm', hid⟩
      rw [List.mem_filter] at hm'
      have : m' = m := List.inj_on_of_nodup_map hnd hm'.1 hm hid
      subst this
      simpa [Bool.or_eq_true, decide_eq_true_eq, and_assoc] using hm'.2
    · intro hcond
      refine ⟨m, ?_, rfl⟩
      rw [List.mem_filter]
      exact ⟨hm, by simpa [Bool.or_eq_true, decide_eq_true_eq, and_assoc] using hcond⟩
  refine ⟨hiff ae, fun h1 h2 h3 h4 ae' => ?_⟩
  exact (hiff ae').2 ⟨Or.inr h1, Or.inr h2, Or.inr h3, Or.inr h4⟩

/-- C2 witness: the all-zero module is supported with every channel
forbidden. -/
theorem get_allowed_modules_spec_witness :
    zeroModule.id ∈ get_allowed_modules [zeroModule] noEffects := by
  exact (get_allowed_modules_spec [zeroModule] noEffects zeroModule (by decide)
    (by decide)).2 rfl rfl rfl rfl noEffects

/-!
## Claim C7 — interning is idempotent, order-independent and injective
-/

theorem internIndex_get {α : Type} [DecidableEq α] (st : List α) (x : α) :
    (internIndex st x).2.get? (internIndex st x).1 = some x := by
  induction st with
  | nil => rfl
  | cons y ys ih =>
    rw [internIndex]
    by_cases hy : y = x
    · rw [if_pos hy]
      simp [hy]
    · rw [if_neg hy]
      simpa using ih

theorem internIndex_fst_lt {α : Type} [DecidableEq α] (st : List α) (x : α) :
    (internIndex st x).1 < (internIndex st x).2.length := by
  induction st with
  | nil => simp [internIndex]
  | cons y ys ih =>
    rw [internIndex]
    by_cases hy : y = x
    · rw [if_pos hy]
      simp
    · rw [if_neg hy]
      simpa using ih

theorem internIndex_get_stable {α : Type} [DecidableEq α] (st : List α) (x : α) :
    ∀ {i : Nat}, i < st.length → (internIndex st x).2.get? i = st.get? i := by
  induction st with
  | nil => intro i hi; simp at hi
  | cons y ys ih =>
    intro i hi
    rw [internIndex]
    by_cases hy : y = x
    · rw [if_pos hy]
    · rw [if_neg hy]
      cases i with
      | zero => rfl
      | succ j =>
        have hj : j < ys.length := by simpa using hi
        simpa using ih hj

theorem internIndex_idem {α : Type} [DecidableEq α] (st : List α) (x : α) :
    internIndex (internIndex st x).2 x = ((internIndex st x).1, (internIndex st x).2) := by
  induction st with
  | nil => simp [internIndex]
  | cons y ys ih =>
    rw [internIndex]
    by_cases hy : y = x
    · rw [if_pos hy, internIndex, if_pos hy]
    · rw [if_neg hy]
      rw [internIndex, if_neg hy, ih]

theorem internIndex_mem {α : Type} [DecidableEq α] (st : List α) (x : α) :
    x ∈ (internIndex st x).2 := by
  induction st with
  | nil => simp [internIndex]
  | cons y ys ih =>
    rw [internIndex]
    by_cases hy : y = x
    · rw [if_pos hy]
      exact hy ▸ List.mem_cons_self y ys
    · rw [if_neg hy]
      exact List.mem_cons_of_mem y ih

/-- C7: threading the interner table through two `Str::new` calls, the two
symbols are equal iff the two texts are equal (in either order, by swapping
`s` and `t`), and resolving either symbol against the final table returns the
interned text, so `Str::new(s).str() == s`. -/
theorem str_new_spec (st : List String) (s t : String) :
    (((str_new st s).1 = (str_new (str_new st s).2 t).1) ↔ s = t)
    ∧ str_resolve (str_new (str_new st s).2 t).2 (str_new st s).1 = some s
    ∧ str_resolve (str_new (str_new st s).2 t).2 (str_new (str_new st s).2 t).1 = some t := by
  have hres_s : str_resolve (str_new (str_new st s).2 t).2 (str_new st s).1 = some s := by
    rw [str_resolve, str_new, str_new]
    rw [internIndex_get_stable _ t (internIndex_fst_lt st s)]
    exact internIndex_get st s
  have hres_t : str_resolve (str_new (str_new st s).2 t).2
      (str_new (str_new st s).2 t).1 = some t := internIndex_get _ t
  refine ⟨⟨fun heq => ?_, fun heq => ?_⟩, hres_s, hres_t⟩
  · have := hres_s
    rw [heq, hres_t] at this
    exact (Option.some_inj.1 this).symm
  · subst heq
    rw [str_new, str_new, internIndex_idem]

/-!
## Claim C9 — atlas placement and `Icon::position` agree
-/

/-- C9: for an atlas of `n` unique tiles and any tile index `i < n`, the pixel
position `Icon::position` recomputes from the stored 1-based value and the
stored tile geometry equals the pixel position at which `transform_icons`
blits the tile; and for 10 unique images the grid is 4 columns by 3 rows with
image 7 (0-indexed) at tile `(3, 1)`. -/
theorem atlas_geometry (n i : Nat) (hn : 0 < n) (hi : i < n) :
    icon_position (icon_new i) (tileMetadataOf n) = atlasPlacePixel n i
    ∧ (n = 10 → atlasColumns n = 4 ∧ atlasRows n = 3)
    ∧ (n = 10 → i = 7 → atlasCell n i = (3, 1)) := by
  have hsqrt10 : Nat.sqrt 10 = 3 := by
    have h1 : Nat.sqrt 10 ≥ 3 := Nat.le_sqrt.mpr (by omega)
    have h2 : Nat.sqrt 10 < 4 := Nat.sqrt_lt.mpr (by omega)
    omega
  have hcols10 : atlasColumns 10 = 4 := by
    rw [atlasColumns, ceilSqrt, hsqrt10]
    simp
  refine ⟨?_, ?_, ?_⟩
  · rw [icon_position, tileMetadataOf, atlasPlacePixel, icon_new, icon_index]
    simp only [TILE_WIDTH, TILE_HEIGHT]
    rw [Nat.mul_div_cancel _ (by omega : 0 < 32)]
    simp
  · rintro rfl
    refine ⟨hcols10, ?_⟩
    rw [atlasRows, hcols10]
  · rintro rfl rfl
    rw [atlasCell, hcols10]

/-- C9 witness: the 10-image atlas at image 7. -/
theorem atlas_geometry_witness :
    icon_position (icon_new 7) (tileMetadataOf 10) = atlasPlacePixel 10 7
      ∧ atlasColumns 10 = 4 ∧ atlasRows 10 = 3 ∧ atlasCell 10 7 = (3, 1) := by
  have h := atlas_geometry 10 7 (by decide) (by decide)
  exact ⟨h.1, (h.2.1 rfl).1, (h.2.1 rfl).2, h.2.2 rfl rfl⟩

/-!
## Claim C10 — payload extraction totality and the reversed-sentinel panic
-/

theorem firstIdxOf_get {b : Nat} : ∀ {s : Line} {i : Nat},
    firstIdxOf b s = some i → s.get? i = some b := by
  intro s
  induction s with
  | nil => intro i h; simp [firstIdxOf] at h
  | cons x xs ih =>
    intro i h
    rw [firstIdxOf] at h
    by_cases hx : x = b
    · rw [if_pos hx] at h
      cases h
      simp [hx]
    · rw [if_neg hx] at h
      cases hfx : firstIdxOf b xs with
      | none => rw [hfx] at h; simp at h
      | some j =>
        rw [hfx, Option.map_some', Option.some_inj] at h
        subst h
        simpa using ih hfx

theorem lastIdxOf_get {b : Nat} : ∀ {s : Line} {i : Nat},
    lastIdxOf b s = some i → s.get? i = some b := by
  intro s
  induction s with
  | nil => intro i h; simp [lastIdxOf] at h
  | cons x xs ih =>
    intro i h
    rw [lastIdxOf] at h
    cases hfx : lastIdxOf b xs with
    | some j =>
      rw [hfx, Option.some_inj] at h
      subst h
      simpa using ih hfx
    | none =>
      rw [hfx] at h
      by_cases hx : x = b
      · rw [if_pos hx, Option.some_inj] at h
        subst h
        simp [hx]
      · rw [if_neg hx] at h
        exact absurd h (by simp)

/-- C10 counterexample: the output `\x04\x01` contains both sentinel bytes,
yet the payload extraction panics (the slice `marker_start + 1 .. marker_end`
has its end before its start) instead of returning a token sequence. -/
theorem extract_data_reversed_sentinels :
    extract_data_payload [4, 1] = .panicked
      ∧ (1 : Nat) ∈ ([4, 1] : Line) ∧ (4 : Nat) ∈ ([4, 1] : Line) := by
  refine ⟨by decide, by decide, by decide⟩

/-- C10 amended: when both sentinels occur, the extraction is total and yields
the token sequence of the span between the first `\x01` and the last `\x04`
whenever the first `\x01` occurs before the last `\x04`; when the last `\x04`
occurs before the first `\x01`, the slice bounds are inverted and the code
panics. -/
theorem extract_data_payload_spec (s : Line) (i j : Nat)
    (hi : firstIdxOf 1 s = some i) (hj : lastIdxOf 4 s = some j) :
    (i ≤ j →
      extract_data_payload s = .extracted (tokenize ((s.drop (i + 1)).take (j - (i + 1)))))
    ∧ (j < i → extract_data_payload s = .panicked) := by
  have hij : i ≠ j := by
    intro heq
    have h1 := firstIdxOf_get hi
    have h2 := lastIdxOf_get hj
    rw [← heq] at h2
    rw [h1] at h2
    simp at h2
  constructor
  · intro hle
    have hlt : i + 1 ≤ j := by omega
    rw [extract_data_payload, hi, hj]
    simp [hlt]
  · intro hlt
    have hn : ¬ (i + 1 ≤ j) := by omega
    rw [extract_data_payload, hi, hj]
    simp [hn]

/-- C10 witness: a two-byte payload region in the right order extracts the
empty token sequence. -/
theorem extract_data_payload_spec_witness :
    extract_data_payload [1, 4] = .extracted [] := by
  have h := (extract_data_payload_spec [1, 4] 0 1 (by decide) (by decide)).1 (by decide)
  exact h.trans (by decide)

/-!
## Claim C4 — `modify_metadata` is only prefix-atomic on error
-/

/-- C4 counterexample: with one item and one fluid, a callback that rewrites
item metadata but fails on fluids makes `modify_metadata` return the error
while the items collection has already been rewritten — the value is not left
unchanged. -/
theorem modify_metadata_not_atomic :
    (modify_metadata smallGameData failOnFluid).1 = .error ()
      ∧ (modify_metadata smallGameData failOnFluid).2 ≠ smallGameData := by
  refine ⟨by decide, by decide⟩

/-- C4 amended: when the callback fails, `modify_metadata` returns the error,
but only the collections processed before the failing one (in the order
items, fluids, recipes, machines, beacons) have been rewritten: every
collection is either unchanged or replaced by its full rewrite, the beacons,
modules and tile metadata are always unchanged, and the whole value is
unchanged when the failure occurs already in the items pass. -/
theorem modify_metadata_prefix_atomic {ε : Type} (gd : GameData)
    (f : EntityID → Metadata → Except ε Metadata) (e : ε)
    (herr : (modify_metadata gd f).1 = .error e) :
    (modify_metadata gd f).2.beacons = gd.beacons
    ∧ (modify_metadata gd f).2.modules = gd.modules
    ∧ (modify_metadata gd f).2.tile_metadata = gd.tile_metadata
    ∧ ((modify_metadata gd f).2.items = gd.items ∨
        collectResults
          (fun it => (f (.item it.id) it.metadata).map fun m => { it with metadata := m })
          gd.items = .ok (modify_metadata gd f).2.items)
    ∧ ((modify_metadata gd f).2.fluids = gd.fluids ∨
        collectResults
          (fun fl => (f (.fluid fl.id) fl.metadata).map fun m => { fl with metadata := m })
          gd.fluids = .ok (modify_metadata gd f).2.fluids)
    ∧ ((modify_metadata gd f).2.recipes = gd.recipes ∨
        collectResults
          (fun r => (f (.recipe r.id) r.metadata).map fun m => { r with metadata := m })
          gd.recipes = .ok (modify_metadata gd f).2.recipes)
    ∧ ((modify_metadata gd f).2.machines = gd.machines ∨
        collectResults
          (fun mc => (f (.machine mc.id) mc.metadata).map fun m => { mc with metadata := m })
          gd.machines = .ok (modify_metadata gd f).2.machines)
    ∧ (∀ e' : ε,
        collectResults
          (fun it => (f (.item it.id) it.metadata).map fun m => { it with metadata := m })
          gd.items = .error e' → (modify_metadata gd f).2 = gd) := by
  cases hit : collectResults
      (fun it => (f (.item it.id) it.metadata).map fun m => { it with metadata := m })
      gd.items with
  | error e1 =>
    have hval : modify_metadata gd f = (.error e1, gd) := by
      rw [modify_metadata]
      simp only [hit]
    rw [hval]
    exact ⟨rfl, rfl, rfl, Or.inl rfl, Or.inl rfl, Or.inl rfl, Or.inl rfl, fun _ _ => rfl⟩
  | ok items1 =>
    cases hfl : collectResults
        (fun fl => (f (.fluid fl.id) fl.metadata).map fun m => { fl with metadata := m })
        gd.fluids with
    | error e2 =>
      have hval : modify_metadata gd f = (.error e2, { gd with items := items1 }) := by
        rw [modify_metadata]
        simp only [hit, hfl]
      rw [hval]
      exact ⟨rfl, rfl, rfl, Or.inr rfl, Or.inl rfl, Or.inl rfl, Or.inl rfl,
        fun e' he' => Except.noConfusion he'⟩
    | ok fluids1 =>
      cases hrc : collectResults
          (fun r => (f (.recipe r.id) r.metadata).map fun m => { r with metadata := m })
          gd.recipes with
      | error e3 =>
        have hval : modify_metadata gd f = (.error e3, { gd with items := items1, fluids := fluids1 }) := by
          rw [modify_metadata]
          simp only [hit, hfl, hrc]
        rw [hval]
        exact ⟨rfl, rfl, rfl, Or.inr rfl, Or.inr rfl, Or.inl rfl, Or.inl rfl,
          fun e' he' => Except.noConfusion he'⟩
      | ok recipes1 =>
        cases hmc : collectResults
            (fun mc => (f (.machine mc.id) mc.metadata).map fun m => { mc with metadata := m })
            gd.machines with
        | error e4 =>
          have hval : modify_metadata gd f = (.error e4, { gd with items := items1, fluids := fluids1, recipes := recipes1 }) := by
            rw [modify_metadata]
            simp only [hit, hfl, hrc, hmc]
          rw [hval]
          exact ⟨rfl, rfl, rfl, Or.inr rfl, Or.inr rfl, Or.inr rfl, Or.inl rfl,
            fun e' he' => Except.noConfusion he'⟩
        | ok machines1 =>
          cases hbc : collectResults
              (fun b => (f (.beacon b.id) b.metadata).map fun m => { b with metadata := m })
              gd.beacons with
          | error e5 =>
            have hval : modify_metadata gd f = (.error e5, { gd with items := items1, fluids := fluids1, recipes := recipes1, machines := machines1 }) := by
              rw [modify_metadata]
              simp only [hit, hfl, hrc, hmc, hbc]
            rw [hval]
            exact ⟨rfl, rfl, rfl, Or.inr rfl, Or.inr rfl, Or.inr rfl, Or.inr rfl,
              fun e' he' => Except.noConfusion he'⟩
          | ok beacons1 =>
            have hval : (modify_metadata gd f).1 = .ok () := by
              rw [modify_metadata]
              simp only [hit, hfl, hrc, hmc, hbc]
            exact Except.noConfusion (hval.symm.trans herr)

/-- C4 witness: the prefix-atomicity theorem applied to the concrete failing
run keeps the beacons (and, per the last conjunct, would keep everything had
the items pass failed). -/
theorem modify_metadata_prefix_atomic_witness :
    (modify_metadata smallGameData failOnFluid).2.beacons = smallGameData.beacons := by
  exact (modify_metadata_prefix_atomic smallGameData failOnFluid () (by decide)).1

/-!
## Claim C8 — icon deduplication is global across all five categories
-/

theorem internIndex_stable {α : Type} [DecidableEq α] (st : List α) (x y : α)
    (hy : y ∈ st) :
    y ∈ (internIndex st x).2
      ∧ (internIndex (internIndex st x).2 y).1 = (internIndex st y).1 := by
  induction st with
  | nil => cases hy
  | cons z zs ih =>
    rw [internIndex]
    by_cases hz : z = x
    · rw [if_pos hz]
      exact ⟨hy, rfl⟩
    · rw [if_neg hz]
      by_cases hzy : z = y
      · refine ⟨hzy ▸ List.mem_cons_self z _, ?_⟩
        rw [internIndex, if_pos hzy, internIndex, if_pos hzy]
      · have hmem : y ∈ zs := by
          rcases List.mem_cons.mp hy with h | h
          · exact absurd h.symm hzy
          · exact h
        have hih := ih hmem
        refine ⟨List.mem_cons_of_mem z hih.1, ?_⟩
        rw [internIndex, if_neg hzy, internIndex, if_neg hzy]
        simpa using hih.2

theorem internIndex_mem_iff {α : Type} [DecidableEq α] (st : List α) (x y : α) :
    y ∈ (internIndex st x).2 ↔ y ∈ st ∨ y = x := by
  induction st with
  | nil => simp [internIndex]
  | cons z zs ih =>
    rw [internIndex]
    by_cases hz : z = x
    · rw [if_pos hz]
      subst hz
      constructor
      · exact Or.inl
      · rintro (h | rfl)
        · exact h
        · exact List.mem_cons_self y zs
    · rw [if_neg hz]
      simp only [List.mem_cons, ih]
      tauto

theorem internIndex_nodup {α : Type} [DecidableEq α] {st : List α} (h : st.Nodup)
    (x : α) : (internIndex st x).2.Nodup := by
  induction st with
  | nil => simp [internIndex]
  | cons z zs ih =>
    rw [internIndex]
    rcases List.nodup_cons.mp h with ⟨hz_mem, hzs⟩
    by_cases hz : z = x
    · rw [if_pos hz]
      exact h
    · rw [if_neg hz]
      rw [List.nodup_cons]
      refine ⟨?_, ih hzs⟩
      rw [internIndex_mem_iff]
      rintro (hmem | rfl)
      · exact hz_mem hmem
      · exact hz rfl

theorem resolveImageGo_stable (buf : Line → Line) (ids : List Line) (st : List Line)
    (y : Line) (hy : y ∈ st) :
    y ∈ (resolveImageGo buf ids st).2
      ∧ (internIndex (resolveImageGo buf ids st).2 y).1 = (internIndex st y).1 := by
  induction ids generalizing st with
  | nil => exact ⟨hy, rfl⟩
  | cons id rest ih =>
    have h1 := internIndex_stable st (buf id) y hy
    have h2 := ih (internIndex st (buf id)).2 h1.1
    rw [resolveImageGo]
    exact ⟨h2.1, h2.2.trans h1.2⟩

theorem resolveImageGo_out (buf : Line → Line) (ids : List Line) (st : List Line)
    (a : Line × Nat) (ha : a ∈ (resolveImageGo buf ids st).1) :
    buf a.1 ∈ (resolveImageGo buf ids st).2
      ∧ (internIndex (resolveImageGo buf ids st).2 (buf a.1)).1 = a.2 := by
  induction ids generalizing st with
  | nil => simp [resolveImageGo] at ha
  | cons id rest ih =>
    rw [resolveImageGo] at ha ⊢
    rcases List.mem_cons.mp ha with heq | hmem
    · subst heq
      have hmem1 := internIndex_mem st (buf id)
      have hstab := resolveImageGo_stable buf rest (internIndex st (buf id)).2
        (buf id) hmem1
      refine ⟨hstab.1, hstab.2.trans ?_⟩
      rw [internIndex_idem]
    · exact ih (internIndex st (buf id)).2 hmem

theorem resolveImageGo_mem_snd (buf : Line → Line) (ids : List Line) (st : List Line)
    (y : Line) :
    y ∈ (resolveImageGo buf ids st).2 ↔ y ∈ st ∨ ∃ id ∈ ids, buf id = y := by
  induction ids generalizing st with
  | nil => simp [resolveImageGo]
  | cons id rest ih =>
    rw [resolveImageGo]
    constructor
    · intro hmem
      rcases (ih (internIndex st (buf id)).2).1 hmem with hin | ⟨id2, hid2, hbuf⟩
      · rcases (internIndex_mem_iff st (buf id) y).1 hin with h | h
        · exact Or.inl h
        · exact Or.inr ⟨id, List.mem_cons_self id rest, h.symm⟩
      · exact Or.inr ⟨id2, List.mem_cons_of_mem id hid2, hbuf⟩
    · intro hmem
      apply (ih (internIndex st (buf id)).2).2
      rcases hmem with hin | ⟨id2, hid2, hbuf⟩
      · exact Or.inl ((internIndex_mem_iff st (buf id) y).2 (Or.inl hin))
      · rcases List.mem_cons.mp hid2 with rfl | hid2
        · exact Or.inl ((internIndex_mem_iff st (buf id2) y).2 (Or.inr hbuf.symm))
        · exact Or.inr ⟨id2, hid2, hbuf⟩

theorem resolveImageGo_nodup (buf : Line → Line) (ids : List Line) {st : List Line}
    (h : st.Nodup) : (resolveImageGo buf ids st).2.Nodup := by
  induction ids generalizing st with
  | nil => exact h
  | cons id rest ih =>
    rw [resolveImageGo]
    exact ih (internIndex_nodup h (buf id))

theorem insertSortedByKey_mem {α : Type} (key : α → Line) (a x : α) (l : List α) :
    x ∈ insertSortedByKey key a l ↔ x = a ∨ x ∈ l := by
  induction l with
  | nil => simp [insertSortedByKey]
  | cons y ys ih =>
    rw [insertSortedByKey]
    by_cases hle : bytesLe (key a) (key y)
    · rw [if_pos hle]
      simp
    · rw [if_neg hle]
      simp only [List.mem_cons, ih]
      tauto

theorem sortByKey_mem {α : Type} (key : α → Line) (l : List α) (x : α) :
    x ∈ sortByKey key l ↔ x ∈ l := by
  rw [sortByKey]
  induction l with
  | nil => simp
  | cons y ys ih =>
    rw [List.foldr_cons, insertSortedByKey_mem]
    simp [ih]

theorem resolve_image_out (buf : Line → Line) (images ids : List Line)
    (a : Line × Nat) (ha : a ∈ (resolve_image buf images ids).1) :
    buf a.1 ∈ (resolve_image buf images ids).2
      ∧ (internIndex (resolve_image buf images ids).2 (buf a.1)).1 = a.2 :=
  resolveImageGo_out buf (sortByKey (fun l => l) ids) images a ha

theorem resolve_image_stable (buf : Line → Line) (images ids : List Line) (y : Line)
    (hy : y ∈ images) :
    y ∈ (resolve_image buf images ids).2
      ∧ (internIndex (resolve_image buf images ids).2 y).1 = (internIndex images y).1 :=
  resolveImageGo_stable buf (sortByKey (fun l => l) ids) images y hy

theorem resolve_image_mem_snd (buf : Line → Line) (images ids : List Line) (y : Line) :
    y ∈ (resolve_image buf images ids).2 ↔ y ∈ images ∨ ∃ id ∈ ids, buf id = y := by
  rw [resolve_image, resolveImageGo_mem_snd]
  constructor
  · rintro (h | ⟨id, hid, hbuf⟩)
    · exact Or.inl h
    · exact Or.inr ⟨id, (sortByKey_mem _ ids id).1 hid, hbuf⟩
  · rintro (h | ⟨id, hid, hbuf⟩)
    · exact Or.inl h
    · exact Or.inr ⟨id, (sortByKey_mem _ ids id).2 hid, hbuf⟩

theorem resolve_image_nodup (buf : Line → Line) {images : List Line} (ids : List Line)
    (h : images.Nodup) : (resolve_image buf images ids).2.Nodup :=
  resolveImageGo_nodup buf _ h

/-- Every per-category assignment of `transform_icons_assign` agrees with the
final shared `images` map: the assigned slot of an ID is the position of its
buffer in the final deduplicated buffer list. -/
theorem transform_icons_assign_out
    (itemIds fluidIds recipeIds machineIds beaconIds : List Line)
    (bufI bufF bufR bufM bufB : Line → Line) (r : IconAssignment)
    (hr : r = transform_icons_assign itemIds fluidIds recipeIds machineIds beaconIds
      bufI bufF bufR bufM bufB)
    (bf : Line → Line) (o : List (Line × Nat))
    (ho : (bf, o) ∈ [(bufI, r.item_icons), (bufF, r.fluid_icons), (bufR, r.recipe_icons),
      (bufM, r.machine_icons), (bufB, r.beacon_icons)])
    (a : Line × Nat) (ha : a ∈ o) :
    bf a.1 ∈ r.images ∧ (internIndex r.images (bf a.1)).1 = a.2 := by
  subst hr
  simp only [List.mem_cons, List.not_mem_nil, or_false, Prod.mk.injEq] at ho
  have himg : (transform_icons_assign itemIds fluidIds recipeIds machineIds beaconIds
      bufI bufF bufR bufM bufB).images =
      (resolve_image bufB (resolve_image bufM (resolve_image bufR (resolve_image bufF
        (resolve_image bufI [] itemIds).2 fluidIds).2 recipeIds).2 machineIds).2
        beaconIds).2 := rfl
  rw [himg]
  rcases ho with ⟨hbf, hol⟩ | ⟨hbf, hol⟩ | ⟨hbf, hol⟩ | ⟨hbf, hol⟩ | ⟨hbf, hol⟩ <;>
    rw [hol] at ha <;> rw [hbf]
  · have h1 := resolve_image_out bufI [] itemIds a ha
    have h2 := resolve_image_stable bufF _ fluidIds _ h1.1
    have h3 := resolve_image_stable bufR _ recipeIds _ h2.1
    have h4 := resolve_image_stable bufM _ machineIds _ h3.1
    have h5 := resolve_image_stable bufB _ beaconIds _ h4.1
    exact ⟨h5.1, h5.2.trans (h4.2.trans (h3.2.trans (h2.2.trans h1.2)))⟩
  · have h1 := resolve_image_out bufF _ fluidIds a ha
    have h3 := resolve_image_stable bufR _ recipeIds _ h1.1
    have h4 := resolve_image_stable bufM _ machineIds _ h3.1
    have h5 := resolve_image_stable bufB _ beaconIds _ h4.1
    exact ⟨h5.1, h5.2.trans (h4.2.trans (h3.2.trans h1.2))⟩
  · have h1 := resolve_image_out bufR _ recipeIds a ha
    have h4 := resolve_image_stable bufM _ machineIds _ h1.1
    have h5 := resolve_image_stable bufB _ beaconIds _ h4.1
    exact ⟨h5.1, h5.2.trans (h4.2.trans h1.2)⟩
  · have h1 := resolve_image_out bufM _ machineIds a ha
    have h5 := resolve_image_stable bufB _ beaconIds _ h1.1
    exact ⟨h5.1, h5.2.trans h1.2⟩
  · exact resolve_image_out bufB _ beaconIds a ha

/-- C8: icon deduplication is global across all five entity categories — any
two IDs (same category or not) whose recovered buffers are byte-identical are
assigned the same atlas slot, and the final unique-tile count (`images.len()`,
stored as `tile_count`) equals the number of distinct buffers over all
processed IDs, not the number of IDs. -/
theorem transform_icons_dedup
    (itemIds fluidIds recipeIds machineIds beaconIds : List Line)
    (bufI bufF bufR bufM bufB : Line → Line) (r : IconAssignment)
    (hr : r = transform_icons_assign itemIds fluidIds recipeIds machineIds beaconIds
      bufI bufF bufR bufM bufB)
    (p1 p2 : (Line → Line) × List (Line × Nat))
    (h1 : p1 ∈ [(bufI, r.item_icons), (bufF, r.fluid_icons), (bufR, r.recipe_icons),
      (bufM, r.machine_icons), (bufB, r.beacon_icons)])
    (h2 : p2 ∈ [(bufI, r.item_icons), (bufF, r.fluid_icons), (bufR, r.recipe_icons),
      (bufM, r.machine_icons), (bufB, r.beacon_icons)])
    (a1 a2 : Line × Nat) (ha1 : a1 ∈ p1.2) (ha2 : a2 ∈ p2.2)
    (hbuf : p1.1 a1.1 = p2.1 a2.1) :
    a1.2 = a2.2
    ∧ r.images.length =
      (itemIds.map bufI ++ fluidIds.map bufF ++ recipeIds.map bufR ++ machineIds.map bufM
        ++ beaconIds.map bufB).toFinset.card := by
  constructor
  · have h1m : (p1.1, p1.2) ∈ [(bufI, r.item_icons), (bufF, r.fluid_icons),
        (bufR, r.recipe_icons), (bufM, r.machine_icons), (bufB, r.beacon_icons)] := by
      rwa [Prod.mk.eta]
    have h2m : (p2.1, p2.2) ∈ [(bufI, r.item_icons), (bufF, r.fluid_icons),
        (bufR, r.recipe_icons), (bufM, r.machine_icons), (bufB, r.beacon_icons)] := by
      rwa [Prod.mk.eta]
    have d1 := transform_icons_assign_out itemIds fluidIds recipeIds machineIds beaconIds
      bufI bufF bufR bufM bufB r hr p1.1 p1.2 h1m a1 ha1
    have d2 := transform_icons_assign_out itemIds fluidIds recipeIds machineIds beaconIds
      bufI bufF bufR bufM bufB r hr p2.1 p2.2 h2m a2 ha2
    rw [hbuf] at d1
    exact d1.2.symm.trans d2.2
  · subst hr
    have himg : (transform_icons_assign itemIds fluidIds recipeIds machineIds beaconIds
        bufI bufF bufR bufM bufB).images =
        (resolve_image bufB (resolve_image bufM (resolve_image bufR (resolve_image bufF
          (resolve_image bufI [] itemIds).2 fluidIds).2 recipeIds).2 machineIds).2
          beaconIds).2 := rfl
    rw [himg]
    have hnd : (resolve_image bufB (resolve_image bufM (resolve_image bufR
        (resolve_image bufF (resolve_image bufI [] itemIds).2 fluidIds).2 recipeIds).2
        machineIds).2 beaconIds).2.Nodup :=
      resolve_image_nodup bufB beaconIds (resolve_image_nodup bufM machineIds
        (resolve_image_nodup bufR recipeIds (resolve_image_nodup bufF fluidIds
          (resolve_image_nodup bufI itemIds List.nodup_nil))))
    rw [← List.toFinset_card_of_nodup hnd]
    congr 1
    apply Finset.ext
    intro y
    simp only [List.mem_toFinset, resolve_image_mem_snd, List.mem_append, List.mem_map,
      List.not_mem_nil, false_or]

/-- C8 witness: one item and one beacon with the same one-byte buffer share
slot 0, and the whole run holds a single unique tile. -/
theorem transform_icons_dedup_witness :
    ((ascii "a", 0) : Line × Nat).2 = ((ascii "b", 0) : Line × Nat).2
      ∧ (transform_icons_assign [ascii "a"] [] [] [] [ascii "b"]
          (fun _ => [7]) (fun _ => [9]) (fun _ => [9]) (fun _ => [9])
          (fun _ => [7])).images.length = 1 := by
  have h := transform_icons_dedup [ascii "a"] [] [] [] [ascii "b"]
    (fun _ => [7]) (fun _ => [9]) (fun _ => [9]) (fun _ => [9]) (fun _ => [7])
    (transform_icons_assign [ascii "a"] [] [] [] [ascii "b"]
      (fun _ => [7]) (fun _ => [9]) (fun _ => [9]) (fun _ => [9]) (fun _ => [7]))
    rfl
    ((fun _ => [7]), (transform_icons_assign [ascii "a"] [] [] [] [ascii "b"]
      (fun _ => [7]) (fun _ => [9]) (fun _ => [9]) (fun _ => [9])
      (fun _ => [7])).item_icons)
    ((fun _ => [7]), (transform_icons_assign [ascii "a"] [] [] [] [ascii "b"]
      (fun _ => [7]) (fun _ => [9]) (fun _ => [9]) (fun _ => [9])
      (fun _ => [7])).beacon_icons)
    (List.mem_cons_self _ _)
    (by
      apply List.mem_cons_of_mem
      apply List.mem_cons_of_mem
      apply List.mem_cons_of_mem
      apply List.mem_cons_of_mem
      exact List.mem_cons_self _ _)
    (ascii "a", 0) (ascii "b", 0)
    (by decide) (by decide) rfl
  exact ⟨h.1, h.2.trans (by decide)⟩

end Graphio
